import Mathlib

/-!
Shallow embedding of the `pyai_caching` package (files
`src/pyai_caching/costs.py` and `src/pyai_caching/agent.py`) together with
theorems settling the specification claims about it.

Modelling conventions:
* Python floating-point quantities (costs, rates, wait durations, jitter)
  are modelled as exact rationals (`ℚ`).
* Python `dict`s are modelled as insertion-ordered association lists; the
  default cost table is embedded entry-for-entry in source order.
* Python string formatting of integers agrees with `toString : ℤ → String`.
* Fallible operations are modelled with explicit outcome inductives; a raised
  Python exception is a distinguished outcome value.
-/

namespace PyaiCaching

/-- Embedding of `ModelCosts` from `costs.py`: a named tuple of four per-million
token rates. -/
structure ModelCosts where
  cost_per_million_input_tokens : ℚ
  cost_per_million_output_tokens : ℚ
  cost_per_million_caching_input_tokens : ℚ
  cost_per_million_caching_hit_tokens : ℚ
deriving DecidableEq

/-- Embedding of `TokenCounts` from `costs.py`. Token counts come from Python
ints, so they are modelled as `ℤ` (the clamping in `get_token_counts` is what
keeps them non-negative). -/
structure TokenCounts where
  input_tokens : ℤ
  output_tokens : ℤ
  cached_input_tokens : ℤ
  cached_output_tokens : ℤ
deriving DecidableEq

/-- Embedding of the module-level `DEFAULT_COSTS` dict of `costs.py`, in source
(insertion) order. -/
def DEFAULT_COSTS : List (String × ModelCosts) :=
  [("claude-3-7-sonnet-latest", ⟨3, 15, 375/100, 3/10⟩),
   ("claude-3-5-haiku-latest", ⟨8/10, 4, 1, 8/100⟩),
   ("gpt-4o-mini", ⟨15/100, 6/10, 0, 75/1000⟩),
   ("o3-mini-2025-01-31", ⟨11/10, 44/10, 0, 55/100⟩),
   ("gemini-1.5-flash", ⟨75/1000, 30/100, 1875/100000, 0⟩),
   ("gemini-2.0-flash-lite", ⟨75/1000, 30/100, 0, 0⟩),
   ("gemini-2.0-flash", ⟨10/100, 40/100, 25/1000, 0⟩)]

/-- Python `dict.update` on insertion-ordered association lists: keys already in
`base` keep their position but take the updating value; keys only in `upd` are
appended in `upd` order. -/
def dictUpdate (base upd : List (String × ModelCosts)) : List (String × ModelCosts) :=
  (base.map fun kv =>
    match upd.find? (fun kv2 => kv2.1 == kv.1) with
    | some kv2 => (kv.1, kv2.2)
    | none => kv) ++
  upd.filter (fun kv2 => !(base.any (fun kv => kv.1 == kv2.1)))

/-- Decides Python's `key.startswith(pre)`: is the first list an initial
segment of the second? -/
def strStarts : List Char → List Char → Bool
  | [], _ => true
  | _ :: _, [] => false
  | a :: as, b :: bs => a == b && strStarts as bs

/-- Outcome of `get_model_costs` in `costs.py`. The `nameError` case records
that the fallback branch executes `log.warning(...)` although no name `log` is
defined anywhere in `costs.py`, so reaching that line raises a Python
`NameError` instead of returning the found rates; it carries the model name and
the table key the loop had found. -/
inductive CostLookup where
  | found (c : ModelCosts)
  | nameError (model_name key : String)
  | modelNotFound (msg : String)
deriving DecidableEq

/-- Merged cost table built by `get_model_costs`: a copy of the defaults
updated with the custom costs (the local `costs_map` of `costs.py`). -/
def costs_map_of (custom_costs : Option (List (String × ModelCosts))) :
    List (String × ModelCosts) :=
  match custom_costs with
  | some cc => dictUpdate DEFAULT_COSTS cc
  | none => DEFAULT_COSTS

/-- Embedding of `get_model_costs` from `costs.py`: merge custom costs over the
defaults, try an exact key lookup, then scan for the first key that starts with
`model_name` (that branch raises `NameError`, see `CostLookup.nameError`), and
otherwise raise `ValueError`. -/
def get_model_costs (model_name : String)
    (custom_costs : Option (List (String × ModelCosts))) : CostLookup :=
  let costs_map := costs_map_of custom_costs
  match costs_map.find? (fun kv => kv.1 == model_name) with
  | some kv => .found kv.2
  | none =>
    match costs_map.find? (fun kv => strStarts model_name.data kv.1.data) with
    | some kv => .nameError model_name kv.1
    | none =>
      .modelNotFound ("Model '" ++ model_name ++ "' not found in cost mappings. " ++
        "Please provide custom costs via the custom_costs parameter or add to DEFAULT_COSTS.")

/-- Model of the duck-typed `usage` object read by `get_token_counts`:
`request_tokens`/`response_tokens` are `none` when the attribute is missing or
`None`, and `details` is `none` when missing or `None`, otherwise an
association list standing for the details dict. -/
structure Usage where
  request_tokens : Option ℤ
  response_tokens : Option ℤ
  details : Option (List (String × ℤ))
deriving DecidableEq

/-- Embedding of `get_token_counts` from `costs.py`: totals default to zero,
cached counts are read from the details map with default zero, and ordinary
counts are the totals minus the cached counts clamped at zero. -/
def get_token_counts (usage : Usage) : TokenCounts :=
  let total_input := usage.request_tokens.getD 0
  let total_output := usage.response_tokens.getD 0
  let details := usage.details.getD []
  let cached_input := ((details.find? (fun kv => kv.1 == "cached_input_tokens")).map Prod.snd).getD 0
  let cached_output := ((details.find? (fun kv => kv.1 == "cached_output_tokens")).map Prod.snd).getD 0
  { input_tokens := max 0 (total_input - cached_input)
    output_tokens := max 0 (total_output - cached_output)
    cached_input_tokens := cached_input
    cached_output_tokens := cached_output }

/-- Outcome of `calculate_cost` in `costs.py`: either a cost, or the Python
exception the cost lookup raised (`NameError` from the undefined logger on the
fallback path, `ValueError` when the model is unknown). -/
inductive CostOutcome where
  | ok (cost : ℚ)
  | nameError (msg : String)
  | valueError (msg : String)
deriving DecidableEq

/-- Embedding of `calculate_cost` from `costs.py`: look up rates, extract token
counts from the result's usage, and sum the four rate-weighted counts before a
single division by one million. -/
def calculate_cost (model_name : String) (usage : Usage)
    (custom_costs : Option (List (String × ModelCosts))) : CostOutcome :=
  match get_model_costs model_name custom_costs with
  | .found costs =>
    let tokens := get_token_counts usage
    .ok (((tokens.input_tokens : ℚ) * costs.cost_per_million_input_tokens +
          (tokens.output_tokens : ℚ) * costs.cost_per_million_output_tokens +
          (tokens.cached_input_tokens : ℚ) * costs.cost_per_million_caching_input_tokens +
          (tokens.cached_output_tokens : ℚ) * costs.cost_per_million_caching_hit_tokens) /
         1000000)
  | .nameError _ _ => .nameError "name 'log' is not defined"
  | .modelNotFound msg => .valueError msg

/-- Usage record with every field missing, for the defaulting clause of C7. -/
def emptyUsage : Usage := ⟨none, none, none⟩

/-- Lexicographic comparison of char lists by code point, deciding Python's
string ordering as used by `sorted`. -/
def charListLe : List Char → List Char → Bool
  | [], _ => true
  | _ :: _, [] => false
  | a :: as, b :: bs =>
    if a.toNat < b.toNat then true
    else if b.toNat < a.toNat then false
    else charListLe as bs

mutual
/-- JSON-shaped Python values as they occur in `model_json_schema()` output:
strings, lists and dicts (the subset through which two output types can differ
in shape). -/
inductive PyVal : Type where
  | str (s : String)
  | arr (l : PyList)
  | obj (l : PyDict)
/-- Spine of a nested Python list value. -/
inductive PyList : Type where
  | nil
  | cons (v : PyVal) (t : PyList)
/-- Spine of a nested Python dict value. -/
inductive PyDict : Type where
  | nil
  | cons (k : String) (v : PyVal) (t : PyDict)
end

/-- The opening curly bracket character of a Python dict repr. -/
def lbrace : Char := Char.ofNat 123

/-- The closing curly bracket character of a Python dict repr. -/
def rbrace : Char := Char.ofNat 125

/-- Python `repr` escaping of one character inside a single-quoted string
literal: backslash and single quote are backslash-escaped, everything else is
kept (control-character escapes are not modelled; they do not affect
unambiguity). -/
def escChar (c : Char) : List Char :=
  if c = '\\' then ['\\', '\\']
  else if c = '\'' then ['\\', '\'']
  else [c]

/-- Python `repr` escaping of a string body, character by character. -/
def escStr : List Char → List Char
  | [] => []
  | c :: t => escChar c ++ escStr t

mutual
/-- Python `repr` of a JSON-shaped value: strings are single-quoted with
escaping, lists are bracketed and dicts braced with `", "`-separated entries.
(Python's alternate double-quote selection for strings containing a single
quote is not modelled; this repr is injective like Python's.) -/
def pyReprV : PyVal → List Char
  | .str s => '\'' :: (escStr s.data ++ ['\''])
  | .arr l => '[' :: (pyReprL l ++ [']'])
  | .obj l => lbrace :: (pyReprD l ++ [rbrace])
/-- Python `repr` of the comma-separated elements of a list value. -/
def pyReprL : PyList → List Char
  | .nil => []
  | .cons v .nil => pyReprV v
  | .cons v (.cons w t) => pyReprV v ++ ',' :: ' ' :: pyReprL (.cons w t)
/-- Python `repr` of the comma-separated `key: value` entries of a dict
value. -/
def pyReprD : PyDict → List Char
  | .nil => []
  | .cons k v .nil => '\'' :: (escStr k.data ++ '\'' :: ':' :: ' ' :: pyReprV v)
  | .cons k v (.cons k2 w t) =>
    '\'' :: (escStr k.data ++ '\'' :: ':' :: ' ' :: pyReprV v) ++
      ',' :: ' ' :: pyReprD (.cons k2 w t)
end

/-- What follows the first element of a rendered list: nothing, or a comma
separator and the rest. -/
def pyReprLTail : PyList → List Char
  | .nil => []
  | .cons v t => ',' :: ' ' :: pyReprL (.cons v t)

/-- What follows the first entry of a rendered dict: nothing, or a comma
separator and the rest. -/
def pyReprDTail : PyDict → List Char
  | .nil => []
  | .cons k v t => ',' :: ' ' :: pyReprD (.cons k v t)

/-- Python `repr` of one `(key, value)` tuple of `schema.items()`. -/
def itemRepr (kv : String × PyVal) : List Char :=
  '(' :: '\'' :: (escStr kv.1.data ++ '\'' :: ',' :: ' ' :: (pyReprV kv.2 ++ [')']))

/-- Python `repr` of the comma-separated item tuples. -/
def itemsRepr : List (String × PyVal) → List Char
  | [] => []
  | kv :: [] => itemRepr kv
  | kv :: kv2 :: t => itemRepr kv ++ ',' :: ' ' :: itemsRepr (kv2 :: t)

/-- What follows the first item tuple: nothing, or a comma separator and the
rest. -/
def itemsReprTail : List (String × PyVal) → List Char
  | [] => []
  | kv :: t => ',' :: ' ' :: itemsRepr (kv :: t)

/-- Ordering of schema items used by Python's `sorted(schema.items())`: compare
the (distinct) dictionary keys. -/
def schemaKeyLe (a b : String × PyVal) : Prop := charListLe a.1.data b.1.data = true

instance : DecidableRel schemaKeyLe := fun a b => by unfold schemaKeyLe; infer_instance

/-- The strict companion of `schemaKeyLe` on items with distinct keys, used to
show sorting is canonical. -/
def schemaKeyLeNe (a b : String × PyVal) : Prop := schemaKeyLe a b ∧ a.1 ≠ b.1

/-- Embedding of Python's `sorted(schema.items())`: the schema items sorted by
key (stable, and keys of a dict are pairwise distinct, so values are never
compared). -/
def sortPairs (l : List (String × PyVal)) : List (String × PyVal) :=
  l.insertionSort schemaKeyLe

/-- Embedding of `str(sorted(schema.items()))` from `create_cache_key`: the
Python list-of-tuples repr of the sorted items. -/
def schemaItemsStr (l : List (String × PyVal)) : String :=
  ⟨'[' :: (itemsRepr l ++ [']'])⟩

/-- Model of the agent as seen by `create_cache_key` in `agent.py`: its Python
string form `str(agent)` and, when `agent.output_type` is set and schema
introspection succeeds, the top-level items of `output_type.model_json_schema()`
(`none` also covers the logged-and-omitted introspection-failure path). -/
structure AgentModel where
  strForm : String
  output_schema : Option (List (String × PyVal))

/-- Embedding of `create_cache_key` from `agent.py`: join `str(agent)`, the
prompt, the `"|"`-joined string forms of a non-empty message history, and the
sorted schema repr, with `"|"` as separator. -/
def create_cache_key (agent : AgentModel) (prompt : String)
    (message_history : List String) : String :=
  let key_parts := [agent.strForm, prompt]
  let key_parts :=
    if message_history ≠ [] then key_parts ++ [String.intercalate "|" message_history]
    else key_parts
  let key_parts :=
    match agent.output_schema with
    | some schema => key_parts ++ [schemaItemsStr (sortPairs schema)]
    | none => key_parts
  String.intercalate "|" key_parts

/-- The cache-key components that follow the prompt: joined history (when
non-empty) and sorted schema repr (when present). -/
def tailParts (agent : AgentModel) (message_history : List String) : List String :=
  (if message_history ≠ [] then [String.intercalate "|" message_history] else []) ++
  (match agent.output_schema with
   | some schema => [schemaItemsStr (sortPairs schema)]
   | none => [])

/-- Concatenation of a separator followed by each list element, the tail of an
intercalation. -/
def joinSep (s : String) : List String → String
  | [] => ""
  | a :: as => s ++ a ++ joinSep s as

/-- Result object produced by a successful `agent.run`: an opaque output
payload and the usage record read by the cost model. -/
structure AgentResult where
  output : String
  usage : Usage
deriving DecidableEq

/-- Outcome of one `agent.run` invocation inside the retry loop of
`cached_agent_run`, matching its except clauses: `usageLimit` is pydantic-ai's
`UsageLimitExceeded`, `connError` is one of `asyncio.TimeoutError`,
`ConnectionRefusedError` or `ConnectionResetError`, and `otherError` is any
other exception (propagated unmodified). -/
inductive AgentOutcome where
  | success (result : AgentResult)
  | usageLimit (msg : String)
  | connError (msg : String)
  | otherError (msg : String)
deriving DecidableEq

/-- Embedding of the `CachedResult` class of `agent.py`: the picklable snapshot
written to and read from the store. -/
structure CachedResult where
  output : String
  usage : Usage
  model : String
  cost : ℚ
deriving DecidableEq

/-- Behaviour of the store's `get` for this call as observed by
`cached_agent_run`: a present entry that unpickles to a `CachedResult`, a
present entry whose unpickling raises, an absent or falsy entry, or a raising
`get`. -/
inductive StoreGetOutcome where
  | value (e : CachedResult)
  | corrupt
  | absent
  | getError (msg : String)
deriving DecidableEq

/-- Behaviour of the store's `set` for this call. -/
inductive StoreSetOutcome where
  | ok
  | setError (msg : String)
deriving DecidableEq

/-- Exception kinds a `cached_agent_run` call can raise. `connectionClass` is
an underlying `asyncio.TimeoutError`/`ConnectionRefusedError`/
`ConnectionResetError` instance; `connectionError` is the package's own
wrapper from `exceptions.py`. -/
inductive ErrorKind where
  | usageLimitExceeded (msg : String)
  | connectionClass (msg : String)
  | connectionError (msg : String)
  | configurationError (msg : String)
  | runtimeError (msg : String)
  | valueError (msg : String)
  | nameError (msg : String)
  | otherError (msg : String)
deriving DecidableEq

/-- Observable actions of one `cached_agent_run` call, in order: store-client
construction, store `get`, an `agent.run` invocation, an expense-recorder
call, a store `set` attempt, and an `asyncio.sleep`. -/
inductive Event where
  | clientConstructed
  | storeGet
  | agentCall
  | expense (model task : String) (cost : ℚ)
  | storeSet
  | wait (seconds : ℚ)
deriving DecidableEq

/-- Result of a `cached_agent_run` call: a decoded cache hit, a fresh agent
result, a raised exception, or fuel exhaustion (the call is still looping
after the given number of loop iterations). -/
inductive RunOutcome where
  | cachedHit (e : CachedResult)
  | fresh (r : AgentResult)
  | raised (e : ErrorKind)
  | outOfFuel
deriving DecidableEq

/-- Is this event an `agent.run` invocation? -/
def isAgentCall : Event → Bool
  | .agentCall => true
  | _ => false

/-- Is this event an `asyncio.sleep`? -/
def isWait : Event → Bool
  | .wait _ => true
  | _ => false

/-- Is this event an expense-recorder call? -/
def isExpense : Event → Bool
  | .expense _ _ _ => true
  | _ => false

/-- Does this event touch the store or its client at all? -/
def isStoreEvent : Event → Bool
  | .clientConstructed => true
  | .storeGet => true
  | .storeSet => true
  | _ => false

/-- Does this `get` behaviour amount to a miss (no decodable entry served)? -/
def StoreGetOutcome.isMiss : StoreGetOutcome → Bool
  | .value _ => false
  | _ => true

/-- Arguments of `cached_agent_run` that the claims depend on. `max_wait` is
accepted but — exactly as in the source — never read by the retry loop;
`max_retries` is the Python int `retry_config['max_retries']`; `jitterJ` is
`retry_config['jitter']`; `urlConfigured` is false when neither the
`redis_url` argument nor the environment variable yields a valid URL, in which
case `get_redis_client` raises `ConfigurationError`. -/
structure RunConfig where
  model_name : String
  task_name : String
  initial_wait : ℚ
  max_wait : ℚ
  skip_cache : Bool
  custom_costs : Option (List (String × ModelCosts))
  max_retries : ℤ
  max_delay : ℚ
  jitterJ : ℚ
  urlConfigured : Bool

/-- Mutable state of the retry loop of `cached_agent_run`: the current
`wait_time`, `retry_count` and `last_error`, plus the number of agent
invocations made so far (indexing the agent behaviour and jitter draws). -/
structure LoopState where
  wait_time : ℚ
  retry_count : ℕ
  last_error : Option ErrorKind
  attempt : ℕ

/-- The retry loop of `cached_agent_run` (`while retry_count < max_retries`),
embedded with fuel: `agent n` is the outcome of the `n`-th `agent.run`
invocation, `jitters k` the value `random.uniform(-jitter, jitter)` returns
for the `k`-th connection retry, and `storeSetB` the store's behaviour on
`set`. Returns the events performed and the outcome; `outOfFuel` means the
loop was still running after `fuel` iterations. On success the cost is
computed, the expense recorder called, and unless `skip_cache` the snapshot is
written to the store (a raising `set` is caught by the final generic handler
and re-raised); on `UsageLimitExceeded` the loop sleeps `wait_time`, doubles
it and retries without touching `retry_count`; on a connection-class error it
increments `retry_count`, raises the wrapping `ConnectionError` once
`retry_count` reaches `max_retries`, and otherwise sleeps the jittered
exponential delay; any other exception is re-raised; when the loop guard
fails, `last_error` (always `none` at that point) would be re-raised, else a
generic `RuntimeError`. -/
def runLoop (cfg : RunConfig) (agent : ℕ → AgentOutcome) (jitters : ℕ → ℚ)
    (storeSetB : StoreSetOutcome) : ℕ → LoopState → List Event × RunOutcome
  | 0, _ => ([], .outOfFuel)
  | fuel + 1, st =>
    if (st.retry_count : ℤ) < cfg.max_retries then
      match agent st.attempt with
      | .success r =>
        match calculate_cost cfg.model_name r.usage cfg.custom_costs with
        | .ok cost =>
          if cfg.skip_cache then
            ([.agentCall, .expense cfg.model_name cfg.task_name cost], .fresh r)
          else
            match storeSetB with
            | .ok =>
              ([.agentCall, .expense cfg.model_name cfg.task_name cost, .storeSet], .fresh r)
            | .setError msg =>
              ([.agentCall, .expense cfg.model_name cfg.task_name cost, .storeSet],
               .raised (.otherError msg))
        | .nameError msg => ([.agentCall], .raised (.nameError msg))
        | .valueError msg => ([.agentCall], .raised (.valueError msg))
      | .usageLimit msg =>
        let rest := runLoop cfg agent jitters storeSetB fuel
          { wait_time := st.wait_time * 2, retry_count := st.retry_count,
            last_error := some (.usageLimitExceeded msg), attempt := st.attempt + 1 }
        (.agentCall :: .wait st.wait_time :: rest.1, rest.2)
      | .connError msg =>
        let rc := st.retry_count + 1
        if (rc : ℤ) ≥ cfg.max_retries then
          ([.agentCall],
           .raised (.connectionError ("Connection error after " ++
             toString cfg.max_retries ++ " retries: " ++ msg)))
        else
          let delay := min (st.wait_time * 2 ^ rc) cfg.max_delay
          let actual_delay := delay * (1 + jitters rc)
          let rest := runLoop cfg agent jitters storeSetB fuel
            { wait_time := st.wait_time, retry_count := rc,
              last_error := some (.connectionClass msg), attempt := st.attempt + 1 }
          (.agentCall :: .wait actual_delay :: rest.1, rest.2)
      | .otherError msg => ([.agentCall], .raised (.otherError msg))
    else
      match st.last_error with
      | some e => ([], .raised e)
      | none =>
        ([], .raised (.runtimeError ("Retries exhausted after " ++
          toString cfg.max_retries ++ " attempts")))

/-- Initial loop state of a call: `wait_time = initial_wait`, counters zero,
no pending error. -/
def initState (cfg : RunConfig) : LoopState := ⟨cfg.initial_wait, 0, none, 0⟩

/-- Embedding of `cached_agent_run` from `agent.py`: unless `skip_cache` is
set, construct the store client (raising `ConfigurationError` when no URL is
configured), `get` under the cache key, return a decoded hit after reporting
zero cost, treat a raising `get`, an absent entry or a failed unpickling as a
miss, and fall through to the retry loop. -/
def cached_agent_run (cfg : RunConfig) (storeGetB : StoreGetOutcome)
    (storeSetB : StoreSetOutcome) (agent : ℕ → AgentOutcome) (jitters : ℕ → ℚ)
    (fuel : ℕ) : List Event × RunOutcome :=
  if cfg.skip_cache then
    runLoop cfg agent jitters storeSetB fuel (initState cfg)
  else if ¬cfg.urlConfigured then
    ([], .raised (.configurationError "Redis URL not configured."))
  else
    match storeGetB with
    | .value e =>
      ([.clientConstructed, .storeGet, .expense cfg.model_name cfg.task_name 0], .cachedHit e)
    | .corrupt =>
      let rest := runLoop cfg agent jitters storeSetB fuel (initState cfg)
      (.clientConstructed :: .storeGet :: rest.1, rest.2)
    | .absent =>
      let rest := runLoop cfg agent jitters storeSetB fuel (initState cfg)
      (.clientConstructed :: .storeGet :: rest.1, rest.2)
    | .getError _ =>
      let rest := runLoop cfg agent jitters storeSetB fuel (initState cfg)
      (.clientConstructed :: .storeGet :: rest.1, rest.2)

/-- Events the rate-limit branch emits when every attempt raises
`UsageLimitExceeded`: one agent call and one sleep of the current wait per
iteration, the wait doubling each time (this is the claim-side description the
loop is compared with). -/
def uleEvents (w : ℚ) : ℕ → List Event
  | 0 => []
  | n + 1 => .agentCall :: .wait w :: uleEvents (w * 2) n

/-- Events the connection-error branch emits when every attempt raises a
connection-class error, starting from `retry_count = c` with `k` attempts left
until exhaustion: before the `i`-th retry the delay is
`min(wait_time * 2 ^ i, max_delay) * (1 + jitter_i)` (the claim-side
description the loop is compared with). -/
def connEvents (w maxd : ℚ) (j : ℕ → ℚ) : ℕ → ℕ → List Event
  | _, 0 => []
  | _, 1 => [.agentCall]
  | c, k + 2 =>
    .agentCall :: .wait (min (w * 2 ^ (c + 1)) maxd * (1 + j (c + 1))) ::
      connEvents w maxd j (c + 1) (k + 1)

/-- C5: for every recognized model the computed cost is the sum of the four
rate-weighted token counts divided by one million (single division); a call
with one million ordinary input tokens and input rate 3 costs exactly 3, and a
call with all-zero counts costs 0. -/
theorem C5_cost_formula (model_name : String) (usage : Usage)
    (custom_costs : Option (List (String × ModelCosts))) (c : ModelCosts)
    (h : get_model_costs model_name custom_costs = .found c) :
    calculate_cost model_name usage custom_costs =
      .ok (((get_token_counts usage).input_tokens * c.cost_per_million_input_tokens +
            (get_token_counts usage).output_tokens * c.cost_per_million_output_tokens +
            (get_token_counts usage).cached_input_tokens * c.cost_per_million_caching_input_tokens +
            (get_token_counts usage).cached_output_tokens * c.cost_per_million_caching_hit_tokens) /
           1000000) ∧
    calculate_cost "claude-3-7-sonnet-latest" ⟨some 1000000, some 0, none⟩ none = .ok 3 ∧
    calculate_cost model_name emptyUsage custom_costs = .ok 0 := by
  refine ⟨?_, ?_, ?_⟩
  · simp only [calculate_cost, h]
  · simp [calculate_cost, get_model_costs, costs_map_of, DEFAULT_COSTS, get_token_counts]
  · simp [calculate_cost, h, get_token_counts, emptyUsage]

/-- Witness for C5 at a concrete input: the claude-3-7 rates are found and the
scenario cost evaluates to exactly 3. -/
theorem C5_cost_formula_witness :
    calculate_cost "claude-3-7-sonnet-latest" ⟨some 1000000, some 0, none⟩ none = .ok 3 :=
  (C5_cost_formula "claude-3-7-sonnet-latest" emptyUsage none ⟨3, 15, 375/100, 3/10⟩
    (by simp [get_model_costs, costs_map_of, DEFAULT_COSTS])).2.1

/-- C7: ordinary token counts are the reported totals minus the cached counts
clamped at zero, hence zero (never negative) whenever a cached count exceeds
its total, and a usage object with every field missing yields all-zero
counts. -/
theorem C7_token_clamping (u : Usage) :
    (get_token_counts u).input_tokens =
      max 0 (u.request_tokens.getD 0 -
        (((u.details.getD []).find? (fun kv => kv.1 == "cached_input_tokens")).map Prod.snd).getD 0) ∧
    (get_token_counts u).output_tokens =
      max 0 (u.response_tokens.getD 0 -
        (((u.details.getD []).find? (fun kv => kv.1 == "cached_output_tokens")).map Prod.snd).getD 0) ∧
    0 ≤ (get_token_counts u).input_tokens ∧
    0 ≤ (get_token_counts u).output_tokens ∧
    ((get_token_counts u).cached_input_tokens > u.request_tokens.getD 0 →
      (get_token_counts u).input_tokens = 0) ∧
    ((get_token_counts u).cached_output_tokens > u.response_tokens.getD 0 →
      (get_token_counts u).output_tokens = 0) ∧
    get_token_counts emptyUsage = ⟨0, 0, 0, 0⟩ := by
  refine ⟨rfl, rfl, le_max_left _ _, le_max_left _ _, ?_, ?_, rfl⟩
  · intro h
    simp only [get_token_counts] at h ⊢
    omega
  · intro h
    simp only [get_token_counts] at h ⊢
    omega

/-- Witness for C7 at a concrete usage where both cached counts exceed the
totals: the ordinary counts are exactly zero. -/
theorem C7_token_clamping_witness :
    (get_token_counts ⟨some 5, some 5, some [("cached_input_tokens", 9), ("cached_output_tokens", 7)]⟩).input_tokens = 0 ∧
    (get_token_counts ⟨some 5, some 5, some [("cached_input_tokens", 9), ("cached_output_tokens", 7)]⟩).output_tokens = 0 :=
  ⟨(C7_token_clamping ⟨some 5, some 5, some [("cached_input_tokens", 9), ("cached_output_tokens", 7)]⟩).2.2.2.2.1
     (by simp [get_token_counts]),
   (C7_token_clamping ⟨some 5, some 5, some [("cached_input_tokens", 9), ("cached_output_tokens", 7)]⟩).2.2.2.2.2.1
     (by simp [get_token_counts])⟩

/-- Finding with a conjoined predicate equals finding with the second conjunct
alone whenever the second implies the first. -/
theorem find?_and_of_imp {α : Type} (p q : α → Bool) (l : List α)
    (h : ∀ a, q a = true → p a = true) :
    l.find? (fun a => p a && q a) = l.find? q := by
  induction l with
  | nil => rfl
  | cons a t ih =>
    cases hq : q a with
    | true => simp [List.find?_cons, hq, h a hq]
    | false => simpa [List.find?_cons, hq, Bool.and_false] using ih

/-- A key present in the updating dict is found in the Python-style merged dict
with the updating dict's (first) value for it, regardless of the base dict. -/
theorem dictUpdate_find?_of_upd (base upd : List (String × ModelCosts)) (name : String)
    (p : String × ModelCosts) (h : upd.find? (fun kv => kv.1 == name) = some p) :
    (dictUpdate base upd).find? (fun kv => kv.1 == name) = some (name, p.2) := by
  have hp : p.1 = name := by simpa using List.find?_some h
  unfold dictUpdate
  rw [List.find?_append, List.find?_map]
  have hcomp : ((fun kv : String × ModelCosts => kv.1 == name) ∘
      (fun kv : String × ModelCosts =>
        match upd.find? (fun kv2 => kv2.1 == kv.1) with
        | some kv2 => (kv.1, kv2.2)
        | none => kv)) = fun kv : String × ModelCosts => kv.1 == name := by
    funext kv
    cases hfind : upd.find? (fun kv2 => kv2.1 == kv.1) <;> simp [Function.comp, hfind]
  rw [hcomp]
  cases hb : base.find? (fun kv => kv.1 == name) with
  | some q0 =>
    have hq0 : q0.1 = name := by simpa using List.find?_some hb
    simp only [Option.map_some', Option.or_some, Option.some.injEq]
    rw [hq0, h]
  | none =>
    simp only [Option.map_none', Option.none_or]
    rw [List.find?_filter]
    have hdec : (fun a : String × ModelCosts =>
        decide ((!base.any fun kv => kv.1 == a.1) = true ∧ (a.1 == name) = true)) =
        fun a : String × ModelCosts => (!base.any fun kv => kv.1 == a.1) && (a.1 == name) := by
      funext a
      cases base.any fun kv => kv.1 == a.1 <;> cases ha : a.1 == name <;> simp [ha]
    rw [hdec, find?_and_of_imp _ _ _ ?_, h]
    · rw [show p = (name, p.2) from by rw [← hp]]
    · intro a ha
      have haname : a.1 = name := by simpa using ha
      have hnone := List.find?_eq_none.mp hb
      simp only [Bool.not_eq_true']
      rw [List.any_eq_false]
      intro kv hkv
      have := hnone kv hkv
      simp only [haname]
      simpa using this

/-- C3 counterexample: `"gemini-1.5-flash"` is a table key that is a
string-prefix of the model identifier `"gemini-1.5-flash-8b"`, yet
`get_model_costs` raises the model-not-recognized `ValueError` instead of
returning that key's rates with a warning: the code's fallback scans for table
keys that *start with* the model identifier, the reverse direction. -/
theorem C3_counterexample :
    get_model_costs "gemini-1.5-flash-8b" none =
      .modelNotFound ("Model 'gemini-1.5-flash-8b' not found in cost mappings. " ++
        "Please provide custom costs via the custom_costs parameter or add to DEFAULT_COSTS.") ∧
    strStarts "gemini-1.5-flash".data "gemini-1.5-flash-8b".data = true ∧
    get_model_costs "gemini-1.5-flash-8b" none ≠ .found ⟨75/1000, 30/100, 1875/100000, 0⟩ := by
  refine ⟨rfl, rfl, fun hcontra => ?_⟩
  rw [show get_model_costs "gemini-1.5-flash-8b" none =
      .modelNotFound ("Model 'gemini-1.5-flash-8b' not found in cost mappings. " ++
        "Please provide custom costs via the custom_costs parameter or add to DEFAULT_COSTS.") from rfl] at hcontra
  exact CostLookup.noConfusion hcontra

/-- C3 amended: exact lookup on the merged table returns its rates with custom
costs overriding defaults for identical keys; with no exact match, if some
table key *starts with* the model identifier (the reverse direction from the
claim) the fallback path raises a `NameError` (the module logger `log` is
undefined in `costs.py`) and never returns rates; and when no key matches at
all the call fails with the model-not-recognized `ValueError`, not a zero-cost
default. -/
theorem C3_model_lookup (model_name : String) :
    (∀ custom p, (costs_map_of custom).find? (fun kv => kv.1 == model_name) = some p →
      get_model_costs model_name custom = .found p.2) ∧
    (∀ cc p, cc.find? (fun kv => kv.1 == model_name) = some p →
      get_model_costs model_name (some cc) = .found p.2) ∧
    (∀ custom p, (costs_map_of custom).find? (fun kv => kv.1 == model_name) = none →
      (costs_map_of custom).find? (fun kv => strStarts model_name.data kv.1.data) = some p →
      get_model_costs model_name custom = .nameError model_name p.1 ∧
      ∀ c, get_model_costs model_name custom ≠ .found c) ∧
    (∀ custom, (∀ kv ∈ costs_map_of custom, kv.1 ≠ model_name ∧
        strStarts model_name.data kv.1.data = false) →
      get_model_costs model_name custom =
        .modelNotFound ("Model '" ++ model_name ++ "' not found in cost mappings. " ++
          "Please provide custom costs via the custom_costs parameter or add to DEFAULT_COSTS.")) := by
  refine ⟨?_, ?_, ?_, ?_⟩
  · intro custom p h
    simp only [get_model_costs, h]
  · intro cc p h
    have := dictUpdate_find?_of_upd DEFAULT_COSTS cc model_name p h
    simp only [get_model_costs, costs_map_of, this]
  · intro custom p h1 h2
    constructor
    · simp only [get_model_costs, h1, h2]
    · intro c
      simp only [get_model_costs, h1, h2]
      exact fun hcontra => CostLookup.noConfusion hcontra
  · intro custom h
    have h1 : (costs_map_of custom).find? (fun kv => kv.1 == model_name) = none := by
      rw [List.find?_eq_none]
      intro kv hkv
      simpa using (h kv hkv).1
    have h2 : (costs_map_of custom).find? (fun kv => strStarts model_name.data kv.1.data) = none := by
      rw [List.find?_eq_none]
      intro kv hkv
      simp [(h kv hkv).2]
    simp only [get_model_costs, h1, h2]

/-- Witness for C3 at concrete inputs: a custom entry overrides the default
rates for `claude-3-7-sonnet-latest`; the identifier `"gemini"` (an exact miss
that several table keys start with) hits the `NameError` fallback rather than
returning rates; and a fully unknown model fails hard. -/
theorem C3_model_lookup_witness :
    get_model_costs "claude-3-7-sonnet-latest" (some [("claude-3-7-sonnet-latest", ⟨1, 2, 3, 4⟩)]) =
      .found ⟨1, 2, 3, 4⟩ ∧
    get_model_costs "gemini" none = .nameError "gemini" "gemini-1.5-flash" ∧
    get_model_costs "unknown-model" none =
      .modelNotFound ("Model 'unknown-model' not found in cost mappings. " ++
        "Please provide custom costs via the custom_costs parameter or add to DEFAULT_COSTS.") :=
  ⟨(C3_model_lookup "claude-3-7-sonnet-latest").2.1
      [("claude-3-7-sonnet-latest", ⟨1, 2, 3, 4⟩)] ("claude-3-7-sonnet-latest", ⟨1, 2, 3, 4⟩) rfl,
   ((C3_model_lookup "gemini").2.2.1 none ("gemini-1.5-flash", ⟨75/1000, 30/100, 1875/100000, 0⟩)
      rfl rfl).1,
   (C3_model_lookup "unknown-model").2.2.2 none (by decide)⟩

/-- Appending a string on the right cancels. -/
theorem str_append_cancel_right (a b c : String) (h : a ++ c = b ++ c) : a = b := by
  have hd : (a ++ c).data = (b ++ c).data := by rw [h]
  simp [String.data_append] at hd
  exact String.ext hd

/-- Appending a string on the left cancels. -/
theorem str_append_cancel_left (a b c : String) (h : c ++ a = c ++ b) : a = b := by
  have hd : (c ++ a).data = (c ++ b).data := by rw [h]
  simp [String.data_append] at hd
  exact String.ext hd

/-- The accumulator of `String.intercalate.go` splits off. -/
theorem intercalate_go_eq (s : String) (l : List String) :
    ∀ acc, String.intercalate.go acc s l = acc ++ joinSep s l := by
  induction l with
  | nil => intro acc; simp [String.intercalate.go, joinSep]
  | cons a as ih =>
    intro acc
    rw [String.intercalate.go, ih, joinSep]
    simp [String.append_assoc]

/-- Intercalation of a non-empty list is its head followed by the
separator-prefixed tail. -/
theorem intercalate_cons (s x : String) (l : List String) :
    String.intercalate s (x :: l) = x ++ joinSep s l := by
  rw [String.intercalate, intercalate_go_eq]

/-- The cache key splits into the agent part, the prompt and the remaining
components. -/
theorem create_cache_key_parts (a : AgentModel) (p : String) (h : List String) :
    create_cache_key a p h = a.strForm ++ ("|" ++ p ++ joinSep "|" (tailParts a h)) := by
  unfold create_cache_key tailParts
  by_cases hh : h ≠ [] <;> cases hsch : a.output_schema <;>
    simp [hh, hsch, intercalate_cons, joinSep, String.append_assoc]

/-- Totality of the code-point comparison. -/
theorem charListLe_total (x y : List Char) : charListLe x y = true ∨ charListLe y x = true := by
  induction x generalizing y with
  | nil => left; rfl
  | cons a as ih =>
    cases y with
    | nil => right; rfl
    | cons b bs =>
      rcases Nat.lt_trichotomy a.toNat b.toNat with h | h | h
      · left; simp [charListLe, h]
      · rcases ih bs with h2 | h2
        · left; simp [charListLe, h, h2]
        · right; simp [charListLe, h.symm, h2]
      · right; simp [charListLe, h]

/-- Transitivity of the code-point comparison. -/
theorem charListLe_trans (x : List Char) : ∀ y z, charListLe x y = true →
    charListLe y z = true → charListLe x z = true := by
  induction x with
  | nil => intro y z _ _; rfl
  | cons a as ih =>
    intro y z hxy hyz
    cases y with
    | nil => simp [charListLe] at hxy
    | cons b bs =>
      cases z with
      | nil => simp [charListLe] at hyz
      | cons c cs =>
        simp only [charListLe] at hxy hyz ⊢
        rcases Nat.lt_trichotomy a.toNat b.toNat with h1 | h1 | h1
        · rcases Nat.lt_trichotomy b.toNat c.toNat with h2 | h2 | h2
          · simp [h1.trans h2]
          · simp [show a.toNat < c.toNat from h2 ▸ h1]
          · rw [if_neg (Nat.lt_asymm h2), if_pos h2] at hyz
            exact absurd hyz Bool.false_ne_true
        · rcases Nat.lt_trichotomy b.toNat c.toNat with h2 | h2 | h2
          · simp [show a.toNat < c.toNat from h1 ▸ h2]
          · rw [if_neg (show ¬a.toNat < c.toNat by omega),
              if_neg (show ¬c.toNat < a.toNat by omega)]
            rw [if_neg (show ¬a.toNat < b.toNat by omega),
              if_neg (show ¬b.toNat < a.toNat by omega)] at hxy
            rw [if_neg (show ¬b.toNat < c.toNat by omega),
              if_neg (show ¬c.toNat < b.toNat by omega)] at hyz
            exact ih bs cs hxy hyz
          · rw [if_neg (Nat.lt_asymm h2), if_pos h2] at hyz
            exact absurd hyz Bool.false_ne_true
        · rw [if_neg (Nat.lt_asymm h1), if_pos h1] at hxy
          exact absurd hxy Bool.false_ne_true

/-- Antisymmetry of the code-point comparison. -/
theorem charListLe_antisymm (x : List Char) : ∀ y, charListLe x y = true →
    charListLe y x = true → x = y := by
  induction x with
  | nil =>
    intro y _ hyx
    cases y with
    | nil => rfl
    | cons b bs => simp [charListLe] at hyx
  | cons a as ih =>
    intro y hxy hyx
    cases y with
    | nil => simp [charListLe] at hxy
    | cons b bs =>
      simp only [charListLe] at hxy hyx
      rcases Nat.lt_trichotomy a.toNat b.toNat with h1 | h1 | h1
      · rw [if_neg (Nat.lt_asymm h1), if_pos h1] at hyx
        exact absurd hyx Bool.false_ne_true
      · have hab : a = b := Char.ext (UInt32.ext h1)
        rw [if_neg (show ¬a.toNat < b.toNat by omega),
          if_neg (show ¬b.toNat < a.toNat by omega)] at hxy
        rw [if_neg (show ¬b.toNat < a.toNat by omega),
          if_neg (show ¬a.toNat < b.toNat by omega)] at hyx
        rw [hab, ih bs hxy hyx]
      · rw [if_neg (Nat.lt_asymm h1), if_pos h1] at hxy
        exact absurd hxy Bool.false_ne_true

/-- Sorting schema items is canonical: two item lists that are permutations of
one another with pairwise-distinct keys sort to the same list. -/
theorem sortPairs_eq_of_perm (s1 s2 : List (String × PyVal)) (hperm : s1.Perm s2)
    (hnd : (s1.map Prod.fst).Nodup) : sortPairs s1 = sortPairs s2 := by
  haveI : IsTotal (String × PyVal) schemaKeyLe := ⟨fun a b => charListLe_total _ _⟩
  haveI : IsTrans (String × PyVal) schemaKeyLe :=
    ⟨fun a b c hab hbc => charListLe_trans _ _ _ hab hbc⟩
  haveI : IsAntisymm (String × PyVal) schemaKeyLeNe :=
    ⟨fun a b hab hba => absurd (String.ext (charListLe_antisymm _ _ hab.1 hba.1)) hab.2⟩
  have hp1 : (sortPairs s1).Perm s1 := List.perm_insertionSort _ _
  have hp2 : (sortPairs s2).Perm s2 := List.perm_insertionSort _ _
  have h12 : (sortPairs s1).Perm (sortPairs s2) := hp1.trans (hperm.trans hp2.symm)
  have hs1 : List.Sorted schemaKeyLe (sortPairs s1) := List.sorted_insertionSort _ _
  have hs2 : List.Sorted schemaKeyLe (sortPairs s2) := List.sorted_insertionSort _ _
  have hnd1 : ((sortPairs s1).map Prod.fst).Nodup := ((hp1.map Prod.fst).nodup_iff).mpr hnd
  have hnds2 : (s2.map Prod.fst).Nodup := ((hperm.map Prod.fst).nodup_iff).mp hnd
  have hnd2 : ((sortPairs s2).map Prod.fst).Nodup := ((hp2.map Prod.fst).nodup_iff).mpr hnds2
  have hpw1 : (sortPairs s1).Pairwise (fun a b => a.1 ≠ b.1) := List.pairwise_map.mp hnd1
  have hpw2 : (sortPairs s2).Pairwise (fun a b => a.1 ≠ b.1) := List.pairwise_map.mp hnd2
  exact List.eq_of_perm_of_sorted (r := schemaKeyLeNe) h12
    ((hs1.and hpw1).imp fun hab => hab) ((hs2.and hpw2).imp fun hab => hab)

/-- The three escape forms of one character: double backslash, escaped quote,
or the literal character (then neither backslash nor quote). -/
theorem escChar_cases (c : Char) :
    (c = '\\' ∧ escChar c = ['\\', '\\']) ∨ (c = '\'' ∧ escChar c = ['\\', '\'']) ∨
    (c ≠ '\\' ∧ c ≠ '\'' ∧ escChar c = [c]) := by
  by_cases h1 : c = '\\'
  · exact Or.inl ⟨h1, by simp [escChar, h1]⟩
  · by_cases h2 : c = '\''
    · exact Or.inr (Or.inl ⟨h2, by simp [escChar, h1, h2]⟩)
    · exact Or.inr (Or.inr ⟨h1, h2, by simp [escChar, h1, h2]⟩)

/-- Unique parsing of an escaped string body up to its closing quote: the body
and the continuation are both determined. -/
theorem escStr_parse : ∀ (s1 s2 r1 r2 : List Char),
    escStr s1 ++ '\'' :: r1 = escStr s2 ++ '\'' :: r2 → s1 = s2 ∧ r1 = r2 := by
  intro s1
  induction s1 with
  | nil =>
    intro s2 r1 r2 h
    cases s2 with
    | nil => simpa [escStr] using h
    | cons c2 t2 =>
      rw [escStr, escStr, List.nil_append, List.append_assoc] at h
      rcases escChar_cases c2 with ⟨hc, he⟩ | ⟨hc, he⟩ | ⟨hc1, hc2, he⟩ <;>
        rw [he] at h <;> simp only [List.cons_append, List.nil_append, List.cons.injEq] at h
      · exact absurd h.1 (by decide)
      · exact absurd h.1 (by decide)
      · exact absurd h.1.symm hc2
  | cons c1 t1 ih =>
    intro s2 r1 r2 h
    cases s2 with
    | nil =>
      rw [escStr, escStr, List.nil_append, List.append_assoc] at h
      rcases escChar_cases c1 with ⟨hc, he⟩ | ⟨hc, he⟩ | ⟨hc1, hc2, he⟩ <;>
        rw [he] at h <;> simp only [List.cons_append, List.nil_append, List.cons.injEq] at h
      · exact absurd h.1 (by decide)
      · exact absurd h.1 (by decide)
      · exact absurd h.1 hc2
    | cons c2 t2 =>
      rw [escStr, escStr, List.append_assoc, List.append_assoc] at h
      rcases escChar_cases c1 with ⟨hc, he⟩ | ⟨hc, he⟩ | ⟨hc1, hc2, he⟩ <;>
        rcases escChar_cases c2 with ⟨hd, hf⟩ | ⟨hd, hf⟩ | ⟨hd1, hd2, hf⟩ <;>
          rw [he, hf] at h <;>
          simp only [List.cons_append, List.nil_append, List.cons.injEq] at h
      · obtain ⟨t12, r12⟩ := ih t2 r1 r2 h.2.2
        exact ⟨by rw [hc, hd, t12], r12⟩
      · exact absurd h.2.1 (by decide)
      · exact absurd h.1.symm hd1
      · exact absurd h.2.1 (by decide)
      · obtain ⟨t12, r12⟩ := ih t2 r1 r2 h.2.2
        exact ⟨by rw [hc, hd, t12], r12⟩
      · exact absurd h.1.symm hd1
      · exact absurd h.1 hc1
      · exact absurd h.1 hc1
      · obtain ⟨t12, r12⟩ := ih t2 r1 r2 h.2
        exact ⟨by rw [h.1, t12], r12⟩

/-- Every rendered value starts with a quote, an opening square bracket or an
opening curly bracket. -/
theorem pyReprV_head (v : PyVal) : ∃ cs c, pyReprV v = c :: cs ∧
    (c = '\'' ∨ c = '[' ∨ c = lbrace) := by
  cases v with
  | str s => exact ⟨escStr s.data ++ ['\''], '\'', by simp [pyReprV], Or.inl rfl⟩
  | arr l => exact ⟨pyReprL l ++ [']'], '[', by simp [pyReprV], Or.inr (Or.inl rfl)⟩
  | obj l => exact ⟨pyReprD l ++ [rbrace], lbrace, by simp [pyReprV], Or.inr (Or.inr rfl)⟩

mutual
/-- Unique parsing of one rendered value: a value repr followed by anything
determines the value and the continuation. -/
theorem pyReprV_parse : ∀ (v1 v2 : PyVal) (r1 r2 : List Char),
    pyReprV v1 ++ r1 = pyReprV v2 ++ r2 → v1 = v2 ∧ r1 = r2
  | .str s1, .str s2, r1, r2 => by
    intro h
    simp only [pyReprV, List.cons_append, List.append_assoc, List.singleton_append,
      List.cons.injEq, true_and] at h
    obtain ⟨hs, hr⟩ := escStr_parse s1.data s2.data r1 r2 h
    exact ⟨by rw [String.ext hs], hr⟩
  | .str s1, .arr l2, r1, r2 => by
    intro h
    simp only [pyReprV, List.cons_append, List.cons.injEq] at h
    exact absurd h.1 (by decide)
  | .str s1, .obj l2, r1, r2 => by
    intro h
    simp only [pyReprV, List.cons_append, List.cons.injEq] at h
    exact absurd h.1 (by decide)
  | .arr l1, .str s2, r1, r2 => by
    intro h
    simp only [pyReprV, List.cons_append, List.cons.injEq] at h
    exact absurd h.1 (by decide)
  | .arr l1, .arr l2, r1, r2 => by
    intro h
    simp only [pyReprV, List.cons_append, List.append_assoc, List.singleton_append,
      List.cons.injEq, true_and] at h
    obtain ⟨hl, hr⟩ := pyReprL_parse l1 l2 r1 r2 h
    exact ⟨by rw [hl], hr⟩
  | .arr l1, .obj l2, r1, r2 => by
    intro h
    simp only [pyReprV, List.cons_append, List.cons.injEq] at h
    exact absurd h.1 (by decide)
  | .obj l1, .str s2, r1, r2 => by
    intro h
    simp only [pyReprV, List.cons_append, List.cons.injEq] at h
    exact absurd h.1 (by decide)
  | .obj l1, .arr l2, r1, r2 => by
    intro h
    simp only [pyReprV, List.cons_append, List.cons.injEq] at h
    exact absurd h.1 (by decide)
  | .obj l1, .obj l2, r1, r2 => by
    intro h
    simp only [pyReprV, List.cons_append, List.append_assoc, List.singleton_append,
      List.cons.injEq, true_and] at h
    obtain ⟨hl, hr⟩ := pyReprD_parse l1 l2 r1 r2 h
    exact ⟨by rw [hl], hr⟩

/-- Unique parsing of a rendered list body up to the closing square
bracket. -/
theorem pyReprL_parse : ∀ (l1 l2 : PyList) (r1 r2 : List Char),
    pyReprL l1 ++ ']' :: r1 = pyReprL l2 ++ ']' :: r2 → l1 = l2 ∧ r1 = r2
  | .nil, .nil, r1, r2 => by
    intro h
    simpa [pyReprL] using h
  | .nil, .cons v2 t2, r1, r2 => by
    intro h
    exfalso
    obtain ⟨cs, c, hc, hdisj⟩ := pyReprV_head v2
    cases t2 <;>
      simp only [pyReprL, List.nil_append, hc, List.cons_append, List.append_assoc,
        List.cons.injEq] at h <;>
      rcases hdisj with rfl | rfl | rfl <;> exact absurd h.1 (by decide)
  | .cons v1 t1, .nil, r1, r2 => by
    intro h
    exfalso
    obtain ⟨cs, c, hc, hdisj⟩ := pyReprV_head v1
    cases t1 <;>
      simp only [pyReprL, List.nil_append, hc, List.cons_append, List.append_assoc,
        List.cons.injEq] at h <;>
      rcases hdisj with rfl | rfl | rfl <;> exact absurd h.1 (by decide)
  | .cons v1 t1, .cons v2 t2, r1, r2 => by
    intro h
    have hsplit : pyReprV v1 ++ (pyReprLTail t1 ++ ']' :: r1) =
        pyReprV v2 ++ (pyReprLTail t2 ++ ']' :: r2) := by
      cases t1 <;> cases t2 <;>
        simpa [pyReprL, pyReprLTail, List.append_assoc] using h
    obtain ⟨hv, hrest⟩ := pyReprV_parse v1 v2 _ _ hsplit
    cases t1 with
    | nil =>
      cases t2 with
      | nil =>
        simp only [pyReprLTail, List.nil_append, List.cons.injEq, true_and] at hrest
        exact ⟨by rw [hv], hrest⟩
      | cons w2 u2 =>
        simp only [pyReprLTail, List.nil_append, List.cons_append, List.cons.injEq] at hrest
        exact absurd hrest.1 (by decide)
    | cons w1 u1 =>
      cases t2 with
      | nil =>
        simp only [pyReprLTail, List.nil_append, List.cons_append, List.cons.injEq] at hrest
        exact absurd hrest.1 (by decide)
      | cons w2 u2 =>
        simp only [pyReprLTail, List.cons_append, List.cons.injEq, true_and] at hrest
        obtain ⟨ht, hr⟩ := pyReprL_parse (.cons w1 u1) (.cons w2 u2) r1 r2 hrest
        exact ⟨by rw [hv, ht], hr⟩

/-- Unique parsing of a rendered dict body up to the closing curly bracket. -/
theorem pyReprD_parse : ∀ (d1 d2 : PyDict) (r1 r2 : List Char),
    pyReprD d1 ++ rbrace :: r1 = pyReprD d2 ++ rbrace :: r2 → d1 = d2 ∧ r1 = r2
  | .nil, .nil, r1, r2 => by
    intro h
    simpa [pyReprD] using h
  | .nil, .cons k2 v2 t2, r1, r2 => by
    intro h
    exfalso
    cases t2 <;>
      simp only [pyReprD, List.nil_append, List.cons_append, List.append_assoc,
        List.cons.injEq] at h <;> exact absurd h.1 (by decide)
  | .cons k1 v1 t1, .nil, r1, r2 => by
    intro h
    exfalso
    cases t1 <;>
      simp only [pyReprD, List.nil_append, List.cons_append, List.append_assoc,
        List.cons.injEq] at h <;> exact absurd h.1 (by decide)
  | .cons k1 v1 t1, .cons k2 v2 t2, r1, r2 => by
    intro h
    have hsplit : escStr k1.data ++ '\'' :: (':' :: ' ' ::
          (pyReprV v1 ++ (pyReprDTail t1 ++ rbrace :: r1))) =
        escStr k2.data ++ '\'' :: (':' :: ' ' ::
          (pyReprV v2 ++ (pyReprDTail t2 ++ rbrace :: r2))) := by
      cases t1 <;> cases t2 <;>
        simpa [pyReprD, pyReprDTail, List.append_assoc] using h
    obtain ⟨hk, hrest1⟩ := escStr_parse k1.data k2.data _ _ hsplit
    simp only [List.cons.injEq, true_and] at hrest1
    obtain ⟨hv, hrest2⟩ := pyReprV_parse v1 v2 _ _ hrest1
    cases t1 with
    | nil =>
      cases t2 with
      | nil =>
        simp only [pyReprDTail, List.nil_append, List.cons.injEq, true_and] at hrest2
        exact ⟨by rw [String.ext hk, hv], hrest2⟩
      | cons k2' w2 u2 =>
        simp only [pyReprDTail, List.nil_append, List.cons_append, List.cons.injEq] at hrest2
        exact absurd hrest2.1 (by decide)
    | cons k1' w1 u1 =>
      cases t2 with
      | nil =>
        simp only [pyReprDTail, List.nil_append, List.cons_append, List.cons.injEq] at hrest2
        exact absurd hrest2.1 (by decide)
      | cons k2' w2 u2 =>
        simp only [pyReprDTail, List.cons_append, List.cons.injEq, true_and] at hrest2
        obtain ⟨ht, hr⟩ := pyReprD_parse (.cons k1' w1 u1) (.cons k2' w2 u2) r1 r2 hrest2
        exact ⟨by rw [String.ext hk, hv, ht], hr⟩
end

/-- Unique parsing of one rendered `(key, value)` item tuple. -/
theorem itemRepr_parse (kv1 kv2 : String × PyVal) (r1 r2 : List Char)
    (h : itemRepr kv1 ++ r1 = itemRepr kv2 ++ r2) : kv1 = kv2 ∧ r1 = r2 := by
  simp only [itemRepr, List.cons_append, List.append_assoc, List.cons.injEq, true_and] at h
  obtain ⟨hk, hrest1⟩ := escStr_parse kv1.1.data kv2.1.data _ _ h
  simp only [List.cons.injEq, true_and] at hrest1
  obtain ⟨hv, hrest2⟩ := pyReprV_parse kv1.2 kv2.2 _ _ hrest1
  simp only [List.cons.injEq, List.nil_append, true_and] at hrest2
  exact ⟨Prod.ext (String.ext hk) hv, hrest2⟩

/-- Unique parsing of the rendered item tuples up to the closing square
bracket. -/
theorem itemsRepr_parse : ∀ (l1 l2 : List (String × PyVal)) (r1 r2 : List Char),
    itemsRepr l1 ++ ']' :: r1 = itemsRepr l2 ++ ']' :: r2 → l1 = l2 ∧ r1 = r2 := by
  intro l1
  induction l1 with
  | nil =>
    intro l2 r1 r2 h
    cases l2 with
    | nil => simpa [itemsRepr] using h
    | cons kv2 t2 =>
      exfalso
      cases t2 <;>
        simp only [itemsRepr, itemRepr, List.nil_append, List.cons_append,
          List.append_assoc, List.cons.injEq] at h <;>
        exact absurd h.1 (by decide)
  | cons kv1 t1 ih =>
    intro l2 r1 r2 h
    cases l2 with
    | nil =>
      exfalso
      cases t1 <;>
        simp only [itemsRepr, itemRepr, List.nil_append, List.cons_append,
          List.append_assoc, List.cons.injEq] at h <;>
        exact absurd h.1 (by decide)
    | cons kv2 t2 =>
      have hsplit : itemRepr kv1 ++ (itemsReprTail t1 ++ ']' :: r1) =
          itemRepr kv2 ++ (itemsReprTail t2 ++ ']' :: r2) := by
        cases t1 <;> cases t2 <;>
          simpa [itemsRepr, itemsReprTail, List.append_assoc] using h
      obtain ⟨hkv, hrest⟩ := itemRepr_parse kv1 kv2 _ _ hsplit
      cases t1 with
      | nil =>
        cases t2 with
        | nil =>
          simp only [itemsReprTail, List.nil_append, List.cons.injEq, true_and] at hrest
          exact ⟨by rw [hkv], hrest⟩
        | cons kv2' u2 =>
          simp only [itemsReprTail, List.nil_append, List.cons_append, List.cons.injEq] at hrest
          exact absurd hrest.1 (by decide)
      | cons kv1' u1 =>
        cases t2 with
        | nil =>
          simp only [itemsReprTail, List.nil_append, List.cons_append, List.cons.injEq] at hrest
          exact absurd hrest.1 (by decide)
        | cons kv2' u2 =>
          simp only [itemsReprTail, List.cons_append, List.cons.injEq, true_and] at hrest
          obtain ⟨ht, hr⟩ := ih (kv2' :: u2) r1 r2 hrest
          exact ⟨by rw [hkv, ht], hr⟩

/-- `str(sorted(schema.items()))` is injective: distinct item lists render to
distinct strings (Python repr parses unambiguously). -/
theorem schemaItemsStr_inj (l1 l2 : List (String × PyVal))
    (h : schemaItemsStr l1 = schemaItemsStr l2) : l1 = l2 := by
  have hd : '[' :: (itemsRepr l1 ++ [']']) = '[' :: (itemsRepr l2 ++ [']']) :=
    congrArg String.data h
  simp only [List.cons.injEq, true_and] at hd
  exact (itemsRepr_parse l1 l2 [] [] (by simpa using hd)).1

/-- Splitting the final element off an intercalation tail. -/
theorem joinSep_append (s x : String) (l : List String) :
    joinSep s (l ++ [x]) = joinSep s l ++ (s ++ x) := by
  induction l with
  | nil =>
    apply String.ext
    simp [joinSep, String.data_append]
  | cons a t ih =>
    apply String.ext
    simp [joinSep, ih, String.data_append]

/-- C6 counterexample: the histories `["a|b"]` and `["a", "b"]` differ in
content but are joined with `"|"` to the same string, so `create_cache_key`
returns the identical key for both — changing history content does not always
change the key. -/
theorem C6_counterexample :
    create_cache_key ⟨"A", none⟩ "p" ["a|b"] = create_cache_key ⟨"A", none⟩ "p" ["a", "b"] ∧
    (["a|b"] : List String) ≠ ["a", "b"] := by
  refine ⟨rfl, by decide⟩

/-- C6 amended: the key is deterministic (it depends only on the agent's string
form and schema, the prompt and the history, never on object identity or
run-to-run state); the schema component is serialized with items sorted by key,
so the iteration order of a schema mapping with distinct keys never affects the
key; changing the prompt alone always changes the key; and changing the
output-schema shape — replacing the schema by one that is not a reordering of
the same key-value items — always changes the key, since the sorted repr
parses unambiguously. (Changing history content does not always change the
key: two histories whose `"|"`-joined string forms coincide collide, see the
counterexample.) -/
theorem C6_cache_key_determinism :
    (∀ (a1 a2 : AgentModel) (p : String) (h : List String), a1.strForm = a2.strForm →
      a1.output_schema = a2.output_schema → create_cache_key a1 p h = create_cache_key a2 p h) ∧
    (∀ (f p : String) (h : List String) (s1 s2 : List (String × PyVal)), s1.Perm s2 →
      (s1.map Prod.fst).Nodup →
      create_cache_key ⟨f, some s1⟩ p h = create_cache_key ⟨f, some s2⟩ p h) ∧
    (∀ (f : String) (sch : Option (List (String × PyVal))) (p1 p2 : String)
      (h : List String), p1 ≠ p2 →
      create_cache_key ⟨f, sch⟩ p1 h ≠ create_cache_key ⟨f, sch⟩ p2 h) ∧
    (∀ (f p : String) (h : List String) (s1 s2 : List (String × PyVal)), ¬s1.Perm s2 →
      create_cache_key ⟨f, some s1⟩ p h ≠ create_cache_key ⟨f, some s2⟩ p h) := by
  refine ⟨?_, ?_, ?_, ?_⟩
  · intro a1 a2 p h h1 h2
    cases a1
    cases a2
    cases h1
    cases h2
    rfl
  · intro f p h s1 s2 hperm hnd
    rw [create_cache_key_parts, create_cache_key_parts]
    simp only [tailParts]
    rw [sortPairs_eq_of_perm s1 s2 hperm hnd]
  · intro f sch p1 p2 h hne heq
    rw [create_cache_key_parts, create_cache_key_parts] at heq
    have h1 := str_append_cancel_left _ _ _ heq
    have h2 := str_append_cancel_right _ _ _ h1
    exact hne (str_append_cancel_left _ _ _ h2)
  · intro f p h s1 s2 hnp heq
    apply hnp
    rw [create_cache_key_parts, create_cache_key_parts] at heq
    simp only [tailParts] at heq
    rw [joinSep_append, joinSep_append] at heq
    have h1 := str_append_cancel_left _ _ _ heq
    have h2 := str_append_cancel_left _ _ _ h1
    have h3 := str_append_cancel_left _ _ _ h2
    have h4 := str_append_cancel_left _ _ _ h3
    have hs := schemaItemsStr_inj _ _ h4
    have hp1 : (sortPairs s1).Perm s1 := List.perm_insertionSort _ _
    have hp2 : (sortPairs s2).Perm s2 := List.perm_insertionSort _ _
    exact hp1.symm.trans (hs ▸ hp2)

/-- Witness for C6 at concrete inputs: reordering schema items leaves the key
unchanged, changing only the prompt changes the key, and changing the schema's
shape (a different value under the same key) changes the key. -/
theorem C6_cache_key_determinism_witness :
    create_cache_key ⟨"A", some [("b", .str "2"), ("a", .str "1")]⟩ "p" [] =
      create_cache_key ⟨"A", some [("a", .str "1"), ("b", .str "2")]⟩ "p" [] ∧
    create_cache_key ⟨"A", none⟩ "hi" [] ≠ create_cache_key ⟨"A", none⟩ "hi!" [] ∧
    create_cache_key ⟨"A", some [("a", .str "1")]⟩ "p" [] ≠
      create_cache_key ⟨"A", some [("a", .str "2")]⟩ "p" [] :=
  ⟨C6_cache_key_determinism.2.1 "A" "p" [] [("b", .str "2"), ("a", .str "1")]
      [("a", .str "1"), ("b", .str "2")] (List.Perm.swap _ _ _) (by decide),
   C6_cache_key_determinism.2.2.1 "A" none "hi" "hi!" [] (by decide),
   C6_cache_key_determinism.2.2.2 "A" "p" [] [("a", .str "1")] [("a", .str "2")]
     (fun hp => by simpa using List.singleton_perm_singleton.mp hp)⟩

/-- When every attempt raises `UsageLimitExceeded`, the loop body never changes
`retry_count`, so the guard stays true and the loop runs forever: after any
number of iterations it has performed exactly that many doubling sleeps and is
still going. -/
theorem runLoop_usageLimit (cfg : RunConfig) (msg : String) (j : ℕ → ℚ)
    (sb : StoreSetOutcome) : ∀ (fuel : ℕ) (st : LoopState),
    (st.retry_count : ℤ) < cfg.max_retries →
    runLoop cfg (fun _ => .usageLimit msg) j sb fuel st =
      (uleEvents st.wait_time fuel, .outOfFuel) := by
  intro fuel
  induction fuel with
  | zero => intro st _; rfl
  | succ n ih =>
    intro st hlt
    have hih := ih ⟨st.wait_time * 2, st.retry_count,
      some (.usageLimitExceeded msg), st.attempt + 1⟩ (by simpa using hlt)
    simp only [runLoop, if_pos hlt, hih, uleEvents]

/-- Every entry of the all-rate-limited trace is one agent call and one sleep
per iteration, so the trace holds exactly `n` sleeps. -/
theorem uleEvents_countP_isWait (n : ℕ) : ∀ w : ℚ, (uleEvents w n).countP isWait = n := by
  induction n with
  | zero => intro w; rfl
  | succ m ih =>
    intro w
    simp [uleEvents, List.countP_cons, isWait, ih]

/-- C1 (code bug): with a rate-limit signal on every attempt, `cached_agent_run`
never terminates: for every fuel bound the call has performed `fuel` sleeps
(doubling the wait each time, never consulting `max_wait`) and is still
looping, instead of re-raising the pending rate-limit error once the next wait
would exceed `max_wait` as the claim and the function's own docstring state.
The `UsageLimitExceeded` branch neither increments `retry_count` nor compares
the wait to `max_wait`. -/
theorem C1_rate_limit_no_termination (cfg : RunConfig) (msg : String) (j : ℕ → ℚ)
    (sb : StoreSetOutcome) (gb : StoreGetOutcome) (fuel : ℕ)
    (hmr : 0 < cfg.max_retries) (hskip : cfg.skip_cache = false)
    (hurl : cfg.urlConfigured = true) (hmiss : gb.isMiss = true) :
    cached_agent_run cfg gb sb (fun _ => .usageLimit msg) j fuel =
      (.clientConstructed :: .storeGet :: uleEvents cfg.initial_wait fuel, .outOfFuel) ∧
    (uleEvents cfg.initial_wait fuel).countP isWait = fuel := by
  refine ⟨?_, uleEvents_countP_isWait fuel cfg.initial_wait⟩
  have hloop : runLoop cfg (fun _ => .usageLimit msg) j sb fuel (initState cfg) =
      (uleEvents cfg.initial_wait fuel, .outOfFuel) :=
    runLoop_usageLimit cfg msg j sb fuel (initState cfg) (by simp [initState]; omega)
  cases gb with
  | value e => simp [StoreGetOutcome.isMiss] at hmiss
  | corrupt => simp [cached_agent_run, hskip, hurl, hloop]
  | absent => simp [cached_agent_run, hskip, hurl, hloop]
  | getError m => simp [cached_agent_run, hskip, hurl, hloop]

/-- Witness for C1 at a concrete call: with the default configuration
(`initial_wait = 1`, `max_wait = 10`, `max_retries = 3`) and a rate-limited
agent, after 6 loop iterations the call has slept 6 times and is still
running, although the claim says it must have raised after 4 waits. -/
theorem C1_rate_limit_no_termination_witness :
    cached_agent_run ⟨"gpt-4o-mini", "t", 1, 10, false, none, 3, 10, 1/10, true⟩ .absent .ok
        (fun _ => .usageLimit "limit") (fun _ => 0) 6 =
      (.clientConstructed :: .storeGet :: uleEvents 1 6, .outOfFuel) ∧
    (uleEvents (1 : ℚ) 6).countP isWait = 6 :=
  C1_rate_limit_no_termination ⟨"gpt-4o-mini", "t", 1, 10, false, none, 3, 10, 1/10, true⟩
    "limit" (fun _ => 0) .ok .absent 6 (by decide) rfl rfl rfl

/-- C10 counterexample: with `max_retries = -1` the raised message renders the
configured value, `"Retries exhausted after -1 attempts"`, not the claim's
fixed string `"Retries exhausted after 0 attempts"`. -/
theorem C10_counterexample :
    (cached_agent_run ⟨"m", "t", 1, 10, true, none, -1, 10, 1/10, false⟩ .absent .ok
        (fun _ => .success ⟨"out", emptyUsage⟩) (fun _ => 0) 1).2 =
      .raised (.runtimeError "Retries exhausted after -1 attempts") ∧
    "Retries exhausted after -1 attempts" ≠ "Retries exhausted after 0 attempts" :=
  ⟨rfl, by decide⟩

/-- C10 amended: whenever `max_retries ≤ 0` and no cache hit is served, the
retry loop body never executes (the agent is never invoked) and the call
raises a generic `RuntimeError` whose message renders the configured
`max_retries` value, `"Retries exhausted after {max_retries} attempts"`,
rather than any error of the documented taxonomy. -/
theorem C10_zero_retries (cfg : RunConfig) (gb : StoreGetOutcome) (sb : StoreSetOutcome)
    (agent : ℕ → AgentOutcome) (j : ℕ → ℚ) (fuel : ℕ)
    (hmr : cfg.max_retries ≤ 0) (hf : 1 ≤ fuel)
    (hpath : cfg.skip_cache = true ∨ (cfg.urlConfigured = true ∧ gb.isMiss = true)) :
    (cached_agent_run cfg gb sb agent j fuel).2 =
      .raised (.runtimeError ("Retries exhausted after " ++
        toString cfg.max_retries ++ " attempts")) ∧
    (cached_agent_run cfg gb sb agent j fuel).1.countP isAgentCall = 0 := by
  obtain ⟨n, rfl⟩ : ∃ n, fuel = n + 1 := ⟨fuel - 1, by omega⟩
  have hloop : runLoop cfg agent j sb (n + 1) (initState cfg) =
      ([], .raised (.runtimeError ("Retries exhausted after " ++
        toString cfg.max_retries ++ " attempts"))) := by
    rw [runLoop, if_neg (by simp only [initState]; omega)]
    simp [initState]
  cases hsc : cfg.skip_cache with
  | true => simp [cached_agent_run, hsc, hloop]
  | false =>
    rcases hpath with hskip | ⟨hurl, hmiss⟩
    · rw [hsc] at hskip
      exact absurd hskip (by simp)
    · cases gb with
      | value e => simp [StoreGetOutcome.isMiss] at hmiss
      | corrupt =>
        simp [cached_agent_run, hsc, hurl, hloop, List.countP_cons, isAgentCall]
      | absent =>
        simp [cached_agent_run, hsc, hurl, hloop, List.countP_cons, isAgentCall]
      | getError m =>
        simp [cached_agent_run, hsc, hurl, hloop, List.countP_cons, isAgentCall]

/-- Witness for C10 at a concrete call with `max_retries = 0` and a cache
miss: no agent invocation happens and the `RuntimeError` is raised. -/
theorem C10_zero_retries_witness :
    (cached_agent_run ⟨"m", "t", 1, 10, false, none, 0, 10, 1/10, true⟩ .absent .ok
        (fun _ => .success ⟨"out", emptyUsage⟩) (fun _ => 0) 1).2 =
      .raised (.runtimeError ("Retries exhausted after " ++ toString (0 : ℤ) ++ " attempts")) ∧
    (cached_agent_run ⟨"m", "t", 1, 10, false, none, 0, 10, 1/10, true⟩ .absent .ok
        (fun _ => .success ⟨"out", emptyUsage⟩) (fun _ => 0) 1).1.countP isAgentCall = 0 :=
  C10_zero_retries ⟨"m", "t", 1, 10, false, none, 0, 10, 1/10, true⟩ .absent .ok
    (fun _ => .success ⟨"out", emptyUsage⟩) (fun _ => 0) 1 (by decide) (by decide)
    (Or.inr ⟨rfl, rfl⟩)

/-- C8: when the store holds a decodable entry for the key, the call returns
the decoded snapshot without invoking the agent, and the expense recorder is
called exactly once, with cost 0. -/
theorem C8_cache_hit (cfg : RunConfig) (e : CachedResult) (sb : StoreSetOutcome)
    (agent : ℕ → AgentOutcome) (j : ℕ → ℚ) (fuel : ℕ)
    (hskip : cfg.skip_cache = false) (hurl : cfg.urlConfigured = true) :
    cached_agent_run cfg (.value e) sb agent j fuel =
      ([.clientConstructed, .storeGet, .expense cfg.model_name cfg.task_name 0],
       .cachedHit e) ∧
    (cached_agent_run cfg (.value e) sb agent j fuel).1.countP isAgentCall = 0 ∧
    (cached_agent_run cfg (.value e) sb agent j fuel).1.filter isExpense =
      [.expense cfg.model_name cfg.task_name 0] := by
  have h1 : cached_agent_run cfg (.value e) sb agent j fuel =
      ([.clientConstructed, .storeGet, .expense cfg.model_name cfg.task_name 0],
       .cachedHit e) := by
    simp [cached_agent_run, hskip, hurl]
  refine ⟨h1, ?_, ?_⟩ <;> rw [h1] <;>
    simp [List.countP_cons, List.filter_cons, isAgentCall, isExpense]

/-- Witness for C8 at a concrete call: the stored snapshot is returned as-is
and the only recorded expense is 0. -/
theorem C8_cache_hit_witness :
    cached_agent_run ⟨"m", "t", 1, 10, false, none, 3, 10, 1/10, true⟩
        (.value ⟨"out", emptyUsage, "m", 5⟩) .ok (fun _ => .otherError "x") (fun _ => 0) 3 =
      ([.clientConstructed, .storeGet, .expense "m" "t" 0],
       .cachedHit ⟨"out", emptyUsage, "m", 5⟩) :=
  (C8_cache_hit ⟨"m", "t", 1, 10, false, none, 3, 10, 1/10, true⟩ ⟨"out", emptyUsage, "m", 5⟩
    .ok (fun _ => .otherError "x") (fun _ => 0) 3 rfl rfl).1

/-- With `skip_cache` set, no iteration of the retry loop ever touches the
store or its client. -/
theorem runLoop_no_store (cfg : RunConfig) (agent : ℕ → AgentOutcome) (j : ℕ → ℚ)
    (sb : StoreSetOutcome) (hskip : cfg.skip_cache = true) :
    ∀ (fuel : ℕ) (st : LoopState), ∀ e ∈ (runLoop cfg agent j sb fuel st).1,
    isStoreEvent e = false := by
  intro fuel
  induction fuel with
  | zero => intro st e he; simp [runLoop] at he
  | succ n ih =>
    intro st e he
    rw [runLoop] at he
    by_cases hlt : (st.retry_count : ℤ) < cfg.max_retries
    · rw [if_pos hlt] at he
      cases hA : agent st.attempt with
      | success r =>
        simp only [hA] at he
        split at he
        · simp [hskip] at he
          rcases he with rfl | rfl <;> rfl
        · simp at he
          subst he
          rfl
        · simp at he
          subst he
          rfl
      | usageLimit msg =>
        simp only [hA] at he
        simp at he
        rcases he with rfl | rfl | hmem
        · rfl
        · rfl
        · exact ih _ e hmem
      | connError msg =>
        simp only [hA] at he
        split at he
        · simp at he
          subst he
          rfl
        · simp at he
          rcases he with rfl | rfl | hmem
          · rfl
          · rfl
          · exact ih _ e hmem
      | otherError msg =>
        simp only [hA] at he
        simp at he
        subst he
        rfl
    · rw [if_neg hlt] at he
      rcases hL : st.last_error <;> simp [hL] at he

/-- C9: with `skip_cache` set the call never constructs a store client and
never reads or writes the store (no store URL is needed: `urlConfigured` is
unconstrained), yet the agent still runs, its cost is computed from the price
table, and the expense recorder is called with that cost. -/
theorem C9_skip_cache (cfg : RunConfig) (gb : StoreGetOutcome) (sb : StoreSetOutcome)
    (agent : ℕ → AgentOutcome) (j : ℕ → ℚ) (fuel : ℕ) (hskip : cfg.skip_cache = true) :
    (∀ e ∈ (cached_agent_run cfg gb sb agent j fuel).1, isStoreEvent e = false) ∧
    (∀ (r : AgentResult) (cost : ℚ), agent 0 = .success r →
      calculate_cost cfg.model_name r.usage cfg.custom_costs = .ok cost →
      0 < cfg.max_retries → 1 ≤ fuel →
      cached_agent_run cfg gb sb agent j fuel =
        ([.agentCall, .expense cfg.model_name cfg.task_name cost], .fresh r)) := by
  constructor
  · intro e he
    rw [cached_agent_run.eq_def, if_pos hskip] at he
    exact runLoop_no_store cfg agent j sb hskip fuel (initState cfg) e he
  · intro r cost hA hC hmr hf
    obtain ⟨n, rfl⟩ : ∃ n, fuel = n + 1 := ⟨fuel - 1, by omega⟩
    rw [cached_agent_run.eq_def, if_pos hskip, runLoop,
      if_pos (show (((initState cfg).retry_count : ℤ)) < cfg.max_retries by
        simp [initState]; omega)]
    simp [initState, hA, hC, hskip]

/-- Witness for C9 at a concrete call with no URL configured at all
(`urlConfigured = false`): the call still succeeds, records the computed cost
and returns the fresh result. -/
theorem C9_skip_cache_witness :
    cached_agent_run ⟨"gpt-4o-mini", "t", 1, 10, true, none, 3, 10, 1/10, false⟩ .absent .ok
        (fun _ => .success ⟨"out", ⟨some 0, some 0, none⟩⟩) (fun _ => 0) 1 =
      ([.agentCall, .expense "gpt-4o-mini" "t" 0], .fresh ⟨"out", ⟨some 0, some 0, none⟩⟩) :=
  (C9_skip_cache ⟨"gpt-4o-mini", "t", 1, 10, true, none, 3, 10, 1/10, false⟩ .absent .ok
      (fun _ => .success ⟨"out", ⟨some 0, some 0, none⟩⟩) (fun _ => 0) 1 rfl).2
    ⟨"out", ⟨some 0, some 0, none⟩⟩ 0 rfl
    (by simp [calculate_cost, get_model_costs, costs_map_of, DEFAULT_COSTS, get_token_counts])
    (by decide) (by decide)

/-- C2 counterexample: a call whose agent run succeeds but whose store `set`
raises does not return the agent's result — the store exception is re-raised
by the final generic handler (`except Exception ... raise`), because the `set`
is inside the loop's `try` and nothing catches it. -/
theorem C2_counterexample :
    (cached_agent_run ⟨"gpt-4o-mini", "t", 1, 10, false, none, 3, 10, 1/10, true⟩ .absent
        (.setError "redis unavailable")
        (fun _ => .success ⟨"out", ⟨some 0, some 0, none⟩⟩) (fun _ => 0) 1).2 =
      .raised (.otherError "redis unavailable") ∧
    (cached_agent_run ⟨"gpt-4o-mini", "t", 1, 10, false, none, 3, 10, 1/10, true⟩ .absent
        (.setError "redis unavailable")
        (fun _ => .success ⟨"out", ⟨some 0, some 0, none⟩⟩) (fun _ => 0) 1).2 ≠
      .fresh ⟨"out", ⟨some 0, some 0, none⟩⟩ := by
  have h : (cached_agent_run ⟨"gpt-4o-mini", "t", 1, 10, false, none, 3, 10, 1/10, true⟩ .absent
      (.setError "redis unavailable")
      (fun _ => .success ⟨"out", ⟨some 0, some 0, none⟩⟩) (fun _ => 0) 1).2 =
      .raised (.otherError "redis unavailable") := by
    simp [cached_agent_run, runLoop, initState, calculate_cost, get_model_costs,
      costs_map_of, DEFAULT_COSTS, get_token_counts]
  exact ⟨h, by rw [h]; simp⟩

/-- C2 amended: a failing or undecodable store read is logged and treated
exactly like a miss (the call behaves identically to an absent entry and the
agent runs); but a failing store write after a successful agent invocation is
not swallowed: the expense is recorded, the write is attempted, and the
store's exception propagates to the caller instead of the agent's result. -/
theorem C2_cache_degradation :
    (∀ (cfg : RunConfig) (sb : StoreSetOutcome) (agent : ℕ → AgentOutcome) (j : ℕ → ℚ)
      (fuel : ℕ) (msg : String),
      cached_agent_run cfg (.getError msg) sb agent j fuel =
        cached_agent_run cfg .absent sb agent j fuel ∧
      cached_agent_run cfg .corrupt sb agent j fuel =
        cached_agent_run cfg .absent sb agent j fuel) ∧
    (∀ (cfg : RunConfig) (agent : ℕ → AgentOutcome) (j : ℕ → ℚ) (fuel : ℕ)
      (msg : String) (r : AgentResult) (cost : ℚ),
      cfg.skip_cache = false → cfg.urlConfigured = true →
      agent 0 = .success r →
      calculate_cost cfg.model_name r.usage cfg.custom_costs = .ok cost →
      0 < cfg.max_retries → 1 ≤ fuel →
      cached_agent_run cfg .absent (.setError msg) agent j fuel =
        ([.clientConstructed, .storeGet, .agentCall,
          .expense cfg.model_name cfg.task_name cost, .storeSet],
         .raised (.otherError msg))) := by
  constructor
  · intro cfg sb agent j fuel msg
    exact ⟨rfl, rfl⟩
  · intro cfg agent j fuel msg r cost hskip hurl hA hC hmr hf
    obtain ⟨n, rfl⟩ : ∃ n, fuel = n + 1 := ⟨fuel - 1, by omega⟩
    rw [cached_agent_run.eq_def]
    simp only [hskip, hurl, Bool.false_eq_true, if_false, not_true, ite_false]
    rw [runLoop, if_pos (show (((initState cfg).retry_count : ℤ)) < cfg.max_retries by
      simp [initState]; omega)]
    simp [initState, hA, hC, hskip]

/-- Witness for C2 at concrete calls: a raising `get` behaves exactly like a
miss, and a raising `set` after a successful run surfaces the store error
instead of the result. -/
theorem C2_cache_degradation_witness :
    cached_agent_run ⟨"gpt-4o-mini", "t", 1, 10, false, none, 3, 10, 1/10, true⟩
        (.getError "boom") .ok (fun _ => .success ⟨"out", ⟨some 0, some 0, none⟩⟩)
        (fun _ => 0) 2 =
      cached_agent_run ⟨"gpt-4o-mini", "t", 1, 10, false, none, 3, 10, 1/10, true⟩
        .absent .ok (fun _ => .success ⟨"out", ⟨some 0, some 0, none⟩⟩) (fun _ => 0) 2 ∧
    cached_agent_run ⟨"gpt-4o-mini", "t", 1, 10, false, none, 3, 10, 1/10, true⟩
        .absent (.setError "down") (fun _ => .success ⟨"out", ⟨some 0, some 0, none⟩⟩)
        (fun _ => 0) 1 =
      ([.clientConstructed, .storeGet, .agentCall, .expense "gpt-4o-mini" "t" 0, .storeSet],
       .raised (.otherError "down")) :=
  ⟨(C2_cache_degradation.1 ⟨"gpt-4o-mini", "t", 1, 10, false, none, 3, 10, 1/10, true⟩ .ok
      (fun _ => .success ⟨"out", ⟨some 0, some 0, none⟩⟩) (fun _ => 0) 2 "boom").1,
   C2_cache_degradation.2 ⟨"gpt-4o-mini", "t", 1, 10, false, none, 3, 10, 1/10, true⟩
     (fun _ => .success ⟨"out", ⟨some 0, some 0, none⟩⟩) (fun _ => 0) 1 "down"
     ⟨"out", ⟨some 0, some 0, none⟩⟩ 0 rfl rfl rfl
     (by simp [calculate_cost, get_model_costs, costs_map_of, DEFAULT_COSTS, get_token_counts])
     (by decide) (by decide)⟩

/-- When every attempt raises a connection-class error, the loop performs one
agent call per attempt, sleeps the jittered exponential delay before each
retry, and raises the wrapping `ConnectionError` on the attempt that brings
`retry_count` up to `max_retries`. -/
theorem runLoop_connError (cfg : RunConfig) (msg : String) (j : ℕ → ℚ)
    (sb : StoreSetOutcome) :
    ∀ (fuel k : ℕ) (st : LoopState), 1 ≤ k → k ≤ fuel →
    (st.retry_count : ℤ) + k = cfg.max_retries →
    runLoop cfg (fun _ => .connError msg) j sb fuel st =
      (connEvents st.wait_time cfg.max_delay j st.retry_count k,
       .raised (.connectionError ("Connection error after " ++
         toString cfg.max_retries ++ " retries: " ++ msg))) := by
  intro fuel
  induction fuel with
  | zero => intro k st h1 h2 _; omega
  | succ n ih =>
    intro k st hk1 hkf hsum
    have hguard : (st.retry_count : ℤ) < cfg.max_retries := by omega
    match k with
    | 1 =>
      simp only [runLoop, if_pos hguard]
      rw [if_pos (show (((st.retry_count + 1 : ℕ)) : ℤ) ≥ cfg.max_retries by
        push_cast; push_cast at hsum; omega)]
      simp [connEvents]
    | (k' + 2) =>
      have hih := ih (k' + 1) ⟨st.wait_time, st.retry_count + 1,
        some (.connectionClass msg), st.attempt + 1⟩ (by omega) (by omega)
        (by push_cast; push_cast at hsum; omega)
      simp only [runLoop, if_pos hguard]
      rw [if_neg (show ¬(((st.retry_count + 1 : ℕ)) : ℤ) ≥ cfg.max_retries by
        push_cast; push_cast at hsum; omega)]
      simp [hih, connEvents]

/-- The all-connection-error trace holds exactly one agent call per attempt
and one sleep per retry. -/
theorem connEvents_counts : ∀ (k c : ℕ) (w d : ℚ) (j : ℕ → ℚ),
    (connEvents w d j c k).countP isAgentCall = k ∧
    (connEvents w d j c k).countP isWait = k - 1 := by
  intro k
  induction k using Nat.strong_induction_on with
  | _ k ih =>
    match k with
    | 0 => intro c w d j; exact ⟨rfl, rfl⟩
    | 1 => intro c w d j; exact ⟨rfl, rfl⟩
    | (k' + 2) =>
      intro c w d j
      have h := ih (k' + 1) (by omega) (c + 1) w d j
      constructor <;>
        simp [connEvents, List.countP_cons, isAgentCall, isWait, h.1, h.2]

/-- C4: when the agent raises a connection-class error on every attempt,
exactly `max_retries` agent invocations occur; before the `i`-th retry the
call sleeps `min(wait_time * 2 ^ i, max_delay) * (1 + jitter_i)` where
`jitter_i` is the `i`-th draw of `random.uniform(-jitter, jitter)` (modelled
by the oracle `j`); and the call then raises the package's `ConnectionError`
wrapping the last underlying cause in its message. -/
theorem C4_connection_retries (cfg : RunConfig) (msg : String) (j : ℕ → ℚ)
    (sb : StoreSetOutcome) (gb : StoreGetOutcome) (fuel m : ℕ)
    (hm : cfg.max_retries = (m : ℤ)) (hm1 : 1 ≤ m) (hf : m ≤ fuel)
    (hskip : cfg.skip_cache = false) (hurl : cfg.urlConfigured = true)
    (hmiss : gb.isMiss = true) :
    cached_agent_run cfg gb sb (fun _ => .connError msg) j fuel =
      (.clientConstructed :: .storeGet ::
        connEvents cfg.initial_wait cfg.max_delay j 0 m,
       .raised (.connectionError ("Connection error after " ++
         toString cfg.max_retries ++ " retries: " ++ msg))) ∧
    (connEvents cfg.initial_wait cfg.max_delay j 0 m).countP isAgentCall = m ∧
    (connEvents cfg.initial_wait cfg.max_delay j 0 m).countP isWait = m - 1 := by
  refine ⟨?_, (connEvents_counts m 0 cfg.initial_wait cfg.max_delay j).1,
    (connEvents_counts m 0 cfg.initial_wait cfg.max_delay j).2⟩
  have hloop : runLoop cfg (fun _ => .connError msg) j sb fuel (initState cfg) =
      (connEvents cfg.initial_wait cfg.max_delay j 0 m,
       .raised (.connectionError ("Connection error after " ++
         toString cfg.max_retries ++ " retries: " ++ msg))) :=
    runLoop_connError cfg msg j sb fuel m (initState cfg) hm1 hf
      (by simp [initState, hm])
  cases gb with
  | value e => simp [StoreGetOutcome.isMiss] at hmiss
  | corrupt => simp [cached_agent_run, hskip, hurl, hloop]
  | absent => simp [cached_agent_run, hskip, hurl, hloop]
  | getError m2 => simp [cached_agent_run, hskip, hurl, hloop]

/-- Witness for C4 at a concrete call with `max_retries = 2`: two agent calls,
one sleep, and the wrapping `ConnectionError`. -/
theorem C4_connection_retries_witness :
    cached_agent_run ⟨"m", "t", 1, 10, false, none, 2, 10, 1/10, true⟩ .absent .ok
        (fun _ => .connError "reset") (fun _ => 0) 2 =
      (.clientConstructed :: .storeGet :: connEvents 1 10 (fun _ => 0) 0 2,
       .raised (.connectionError ("Connection error after " ++ toString (2 : ℤ) ++
         " retries: " ++ "reset"))) ∧
    (connEvents (1 : ℚ) 10 (fun _ => 0) 0 2).countP isAgentCall = 2 ∧
    (connEvents (1 : ℚ) 10 (fun _ => 0) 0 2).countP isWait = 1 :=
  C4_connection_retries ⟨"m", "t", 1, 10, false, none, 2, 10, 1/10, true⟩ "reset"
    (fun _ => 0) .ok .absent 2 2 rfl (by decide) (by decide) rfl rfl rfl

end PyaiCaching
